import Mathlib

/-!
SubwaySentinal — verification of the Transfer Advisory Engine.

Shallow embedding of the decision logic of `src/subway_alert.py` and
`src/web_app.py` (the two near-identical variants of the engine).

Modelling conventions:
* A station feed payload (`data` in the Python code) is modelled by
  `SnapshotData`: the list found under the `"stopTimes"` key.  Each stop-time
  record keeps the resolved route id (`trip.route.id`, with the chained
  `.get(..., default)` accesses collapsed to the resulting string, `""` when
  absent) and its optional `arrival` / `departure` JSON objects.
* A JSON time object is `TimeInfo`: the optional string under `"time"` plus a
  flag recording whether the object carries any other key, which is what
  Python dict truthiness (`st.get("arrival", {}) or st.get("departure", {})`)
  observes.
* Timestamps are Unix epoch seconds; `now` (the float returned by
  `datetime.now(timezone.utc).timestamp()`) is modelled at integer
  granularity, which is exact at every threshold comparison because all
  thresholds and feed timestamps are integers.
* Python's `int(str)` is modelled by `pyInt?`: it strips surrounding
  whitespace, accepts an optional sign followed by decimal digits, and fails
  (raises `ValueError`) on anything else — in particular on every ISO-8601
  string.  A raised exception is modelled by `Except.error ()`, and it
  propagates exactly as in Python (no handler inside the engine functions).
* Python's `sorted(..., key=lambda x: x[1])` is a stable ascending sort; it is
  modelled by `List.insertionSort leKey`, which is proved stable below, and a
  stable sort is extensionally unique for a fixed key.
-/

/-- One JSON time object from the feed: the optional `"time"` string and
whether the object has any further key (so that Python dict truthiness, i.e.
non-emptiness, is expressible). -/
structure TimeInfo where
  time : Option String
  extraKeys : Bool
deriving DecidableEq

/-- One record of `data["stopTimes"]`, with `trip.get("route", {}).get("id", "")`
already collapsed into `routeId`. -/
structure StopTime where
  routeId : String
  arrival : Option TimeInfo
  departure : Option TimeInfo
deriving DecidableEq

/-- A station feed payload: `data.get("stopTimes", [])`. -/
structure SnapshotData where
  stopTimes : List StopTime
deriving DecidableEq

/-- Python truthiness of `st.get("arrival", {})` (resp. departure): the dict is
truthy iff it is non-empty, i.e. it has a `"time"` key or any other key. -/
def timeInfoTruthy : Option TimeInfo → Bool
  | none => false
  | some i => i.time.isSome || i.extraKeys

/-- `arrival_info = st.get("arrival", {}) or st.get("departure", {})` followed by
`arrival_info.get("time")`. -/
def arrivalTimeStr (st : StopTime) : Option String :=
  match (if timeInfoTruthy st.arrival then st.arrival else st.departure) with
  | none => none
  | some i => i.time

/-- `if routes and route_id not in routes: continue` — the record is skipped iff
the filter list is truthy (present and non-empty) and does not contain the
route. -/
def filteredOut (routes : Option (List String)) (routeId : String) : Bool :=
  match routes with
  | none => false
  | some rs => !rs.isEmpty && !rs.contains routeId

/-- Python `int(s)` on a string, as used on feed timestamps: surrounding
whitespace is stripped, an optional sign may precede the decimal digits, and
any other shape raises `ValueError` (modelled as `none`). -/
def pyInt? (s : String) : Option Int :=
  let cs := ((s.toList.dropWhile Char.isWhitespace).reverse.dropWhile
      Char.isWhitespace).reverse
  match cs with
  | [] => none
  | c :: rest =>
    let signed : Bool × List Char :=
      if c = '-' then (true, rest)
      else if c = '+' then (false, rest)
      else (false, cs)
    if signed.2 = [] then none
    else if signed.2.all Char.isDigit then
      let n : Nat := signed.2.foldl (fun a d => 10 * a + (d.toNat - 48)) 0
      some (if signed.1 then -(n : Int) else (n : Int))
    else none

/-- The body of the `for st in stop_times:` loop of `parse_arrivals`, in feed
order, before the final `sorted(...)` call.  A timestamp string that is truthy
(`if arrival_time_str:`) but fails `int(...)` raises, which aborts the whole
call (`Except.error ()`). -/
def parseLoop (now : Int) (routes : Option (List String)) :
    List StopTime → Except Unit (List (String × Int))
  | [] => .ok []
  | st :: rest =>
    if filteredOut routes st.routeId then parseLoop now routes rest
    else
      match arrivalTimeStr st with
      | none => parseLoop now routes rest
      | some s =>
        if s = "" then parseLoop now routes rest
        else
          match pyInt? s with
          | none => .error ()
          | some t =>
            if t - now > 0 then
              match parseLoop now routes rest with
              | .error e => .error e
              | .ok tail => .ok ((st.routeId, t - now) :: tail)
            else parseLoop now routes rest

/-- The per-record outcome of the loop body when no exception is raised: the
`(route, seconds_until)` pair the record contributes, if any. -/
def keptEvent (routes : Option (List String)) (now : Int) (st : StopTime) :
    Option (String × Int) :=
  if filteredOut routes st.routeId then none
  else
    match arrivalTimeStr st with
    | none => none
    | some s =>
      if s = "" then none
      else
        match pyInt? s with
        | none => none
        | some t => if t - now > 0 then some (st.routeId, t - now) else none

/-- Whether a record makes the loop body raise `ValueError`: it survives the
route filter, its effective time string is truthy, and `int(...)` fails. -/
def recordRaises (routes : Option (List String)) (st : StopTime) : Bool :=
  !filteredOut routes st.routeId &&
    (match arrivalTimeStr st with
     | none => false
     | some s => !(s = "") && (pyInt? s).isNone)

/-- Sort key order of `sorted(arrivals, key=lambda x: x[1])`. -/
def leKey (a b : String × Int) : Prop := a.2 ≤ b.2

instance : DecidableRel leKey := fun a b => inferInstanceAs (Decidable (a.2 ≤ b.2))

instance : IsTotal (String × Int) leKey := ⟨fun a b => Int.le_total a.2 b.2⟩

instance : IsTrans (String × Int) leKey := ⟨fun _ _ _ h h' => le_trans h h'⟩

/-- `parse_arrivals(data, routes=None)` of both source variants (their bodies
are identical): loop over `stopTimes`, then stable ascending sort on the
seconds-until value. -/
def parse_arrivals (data : SnapshotData) (routes : Option (List String))
    (now : Int) : Except Unit (List (String × Int)) :=
  match parseLoop now routes data.stopTimes with
  | .error e => .error e
  | .ok arrivals => .ok (List.insertionSort leKey arrivals)

/-- `routes is None or route in routes`. -/
def routeMatches (routes : Option (List String)) (route : String) : Bool :=
  match routes with
  | none => true
  | some rs => rs.contains route

/-- `get_next_train(arrivals, routes=None)` of both variants: first element
passing the filter, else absent (`(None, None)` in Python). -/
def get_next_train (arrivals : List (String × Int))
    (routes : Option (List String)) : Option (String × Int) :=
  match arrivals with
  | [] => none
  | (route, seconds) :: rest =>
    if routeMatches routes route then some (route, seconds)
    else get_next_train rest routes

/-- `check_g_switch(carroll_data, hoyt_data)` of `subway_alert.py`:
Rule A.  Returns the advisory text with the G and A times on success and
`(None, None, None)` (here `none`) on failure; exceptions from parsing
propagate. -/
def check_g_switch (carroll_data hoyt_data : SnapshotData) (now : Int) :
    Except Unit (Option (String × Int × Int)) :=
  match parse_arrivals carroll_data none now with
  | .error e => .error e
  | .ok carroll_arrivals =>
    match get_next_train carroll_arrivals (some ["G"]),
          get_next_train carroll_arrivals (some ["F"]) with
    | some (_, g_time), some (_, f_time) =>
      if f_time - g_time < 6 * 60 then .ok none
      else
        match parse_arrivals hoyt_data none now with
        | .error e => .error e
        | .ok hoyt_arrivals =>
          match get_next_train hoyt_arrivals (some ["A"]) with
          | none => .ok none
          | some (_, a_time) =>
            if a_time ≤ (g_time + 3 * 60) + 5 * 60 then
              .ok (some ("G to A", g_time, a_time))
            else .ok none
    | _, _ => .ok none

/-- The `for route, bd_time in lafayette_arrivals:` scan of
`check_bd_express`: first candidate whose wait is in `[0, 3*60]`, else the
implicit `None` fall-through. -/
def bdScan (f_at_lafayette : Int) : List (String × Int) → Option String
  | [] => none
  | (route, bd_time) :: rest =>
    if 0 ≤ bd_time - f_at_lafayette ∧ bd_time - f_at_lafayette ≤ 3 * 60 then
      some ("Transfer to " ++ route ++ " at Lafayette for Express")
    else bdScan f_at_lafayette rest

/-- `check_bd_express(station_data, lafayette_data, travel_time)` of
`subway_alert.py`: Rule B.  The travel-time constant is a plain parameter and
is used unvalidated. -/
def check_bd_express (station_data lafayette_data : SnapshotData)
    (travel_time now : Int) : Except Unit (Option String) :=
  match parse_arrivals station_data none now with
  | .error e => .error e
  | .ok station_arrivals =>
    match get_next_train station_arrivals (some ["F"]) with
    | none => .ok none
    | some (_, f_time) =>
      match parse_arrivals lafayette_data (some ["B", "D"]) now with
      | .error e => .error e
      | .ok lafayette_arrivals =>
        .ok (bdScan (f_time + travel_time) lafayette_arrivals)

/-- Python substring test `a in b` on strings. -/
def pyInStr (a b : String) : Bool :=
  decide (a.toList <:+: b.toList)

/-- The recommendation state produced by `get_station_report` of
`subway_alert.py` (the composed output, apart from the display-only lines):
the `recommended_train` value after both override blocks, together with the
two rule results that drive the attached notes. -/
structure StationReport where
  recommended_train : String
  g_switch : Option (String × Int × Int)
  bd_advice : Option String
deriving DecidableEq

/-- The composition logic of `get_station_report` (lines 229–243): default
`"F"`; `"G"` if Rule A fired; then, applied afterwards and unconditionally,
`"F → B"` / `"F → D"` if Rule B fired (substring tests on the advisory text).
The network fetch of the station payload is the caller's concern and the
payload is taken as an argument here; the purely textual report lines are not
modelled. -/
def get_station_report_core (station_data hoyt_data lafayette_data :
    SnapshotData) (travel_time now : Int) : Except Unit StationReport :=
  match check_g_switch station_data hoyt_data now with
  | .error e => .error e
  | .ok g_switch =>
    match check_bd_express station_data lafayette_data travel_time now with
    | .error e => .error e
    | .ok bd_advice =>
      let rec1 : String := if g_switch.isSome then "G" else "F"
      let rec2 : String :=
        match bd_advice with
        | some advice =>
          if pyInStr "B" advice then "F → B"
          else if pyInStr "D" advice then "F → D"
          else rec1
        | none => rec1
      .ok ⟨rec2, g_switch, bd_advice⟩

/-- The dashboard payload fields of `get_subway_data` in `web_app.py` that
carry the composed recommendation: the two rule notes and the primary route. -/
structure WebData where
  g_switch : Option String
  bd_express : Option String
  recommended : String
deriving DecidableEq

/-- The B/D loop of `get_subway_data` (lines 84–97): candidates with negative
wait are skipped, non-negative-wait candidates are counted, `bd_express` is
set by the first viable one (wait ≤ 2*60), and the loop breaks once two
candidates have been collected. -/
def webBdLoop (f_at_lafayette : Int) :
    List (String × Int) → Nat → Option String → Option String
  | [], _, bd => bd
  | (route, bd_time) :: rest, count, bd =>
    if bd_time - f_at_lafayette ≥ 0 then
      let viable : Bool := bd_time - f_at_lafayette ≤ 2 * 60
      let bd2 : Option String :=
        if viable && bd.isNone then
          some ("Transfer to " ++ route ++ " at Lafayette")
        else bd
      if count + 1 ≥ 2 then bd2
      else webBdLoop f_at_lafayette rest (count + 1) bd2
    else webBdLoop f_at_lafayette rest count bd

/-- The `# G-Switch logic` block of `get_subway_data` (web_app lines 67–75):
same thresholds as `check_g_switch`.  Truthiness tests on times
(`if g_time and f_time`, `if a_time`) coincide with presence because every
parsed seconds-until value is strictly positive. -/
def web_g_switch_core (gOpt fOpt : Option (String × Int))
    (hoyt_data : SnapshotData) (now : Int) : Except Unit (Option String) :=
  match gOpt, fOpt with
  | some (_, g_time), some (_, f_time) =>
    if f_time - g_time ≥ 6 * 60 then
      match parse_arrivals hoyt_data none now with
      | .error e => .error e
      | .ok hoyt_arrivals =>
        match get_next_train hoyt_arrivals (some ["A"]) with
        | some (_, a_time) =>
          .ok (if a_time ≤ (g_time + 3 * 60) + 5 * 60 then some "G to A"
               else none)
        | none => .ok none
    else .ok none
  | _, _ => .ok none

/-- The `# B/D Express logic` block of `get_subway_data` (web_app lines
77–97), with its hard-coded 8-minute travel time and 2-minute viability
window. -/
def web_bd_core (fOpt : Option (String × Int)) (lafayette_data : SnapshotData)
    (now : Int) : Except Unit (Option String) :=
  match fOpt with
  | some (_, f_time) =>
    match parse_arrivals lafayette_data (some ["B", "D"]) now with
    | .error e => .error e
    | .ok lafayette_arrivals =>
      .ok (webBdLoop (f_time + 8 * 60) lafayette_arrivals 0 none)
  | none => .ok none

/-- The advisory core of `get_subway_data` in `web_app.py` (lines 63–111,
without the display-only fields): the two rule blocks above followed by
`recommended = "G" if g_switch else "F"`. -/
def get_subway_data_core (carroll_data hoyt_data lafayette_data :
    SnapshotData) (now : Int) : Except Unit WebData :=
  match parse_arrivals carroll_data none now with
  | .error e => .error e
  | .ok carroll_arrivals =>
    match web_g_switch_core (get_next_train carroll_arrivals (some ["G"]))
        (get_next_train carroll_arrivals (some ["F"])) hoyt_data now with
    | .error e => .error e
    | .ok g_switch =>
      match web_bd_core (get_next_train carroll_arrivals (some ["F"]))
          lafayette_data now with
      | .error e => .error e
      | .ok bd_express =>
        .ok ⟨g_switch, bd_express, if g_switch.isSome then "G" else "F"⟩

/-! ## Concrete snapshots used by witnesses and counterexamples -/

/-- A record carrying only an arrival-time string (non-empty arrival object,
no departure object). -/
def mkStopTime (r t : String) : StopTime := ⟨r, some ⟨some t, false⟩, none⟩

/-- Origin snapshot for concrete instances: F predicted at 960 s, G at 500 s
(all evaluated at `now = 0`). -/
def snapCarroll : SnapshotData := ⟨[mkStopTime "F" "960", mkStopTime "G" "500"]⟩

/-- Transfer-station snapshot: A predicted at 860 s. -/
def snapHoyt : SnapshotData := ⟨[mkStopTime "A" "860"]⟩

/-- Downstream express snapshot: D at 1500 s, B at 2000 s. -/
def snapLafayette : SnapshotData :=
  ⟨[mkStopTime "D" "1500", mkStopTime "B" "2000"]⟩

/-- A payload with no stop times at all. -/
def snapEmpty : SnapshotData := ⟨[]⟩

/-- A snapshot whose first record carries an ISO-8601 timestamp and whose
second record is well-formed. -/
def snapIso : SnapshotData :=
  ⟨[mkStopTime "F" "2024-01-01T00:00:00Z", mkStopTime "G" "500"]⟩

/-- A snapshot with two records tied at 100 s (G before F in feed order) and
one at 50 s, to exhibit stability. -/
def snapTie : SnapshotData :=
  ⟨[mkStopTime "G" "100", mkStopTime "F" "100", mkStopTime "A" "50"]⟩

/-- Downstream snapshot with an early D train, for the negative-travel-time
instance. -/
def snapLafEarly : SnapshotData := ⟨[mkStopTime "D" "600"]⟩

/-- A record whose arrival object is non-empty but has no timestamp, while its
departure object does carry one. -/
def stShadowed : StopTime := ⟨"G", some ⟨none, true⟩, some ⟨some "100", false⟩⟩

/-- A record carrying no arrival object and no departure object at all. -/
def stBare : StopTime := ⟨"F", none, none⟩

/-- Advisory text built by the Rule B scan for a matched express event. -/
def bdText (e : String × Int) : String :=
  "Transfer to " ++ e.1 ++ " at Lafayette for Express"

/-! ## Helper lemmas -/

/-- When no record raises, the parse loop returns exactly the in-feed-order
list of kept events. -/
theorem parseLoop_eq_ok (now : Int) (routes : Option (List String)) :
    ∀ sts : List StopTime, (∀ st ∈ sts, recordRaises routes st = false) →
      parseLoop now routes sts = .ok (sts.filterMap (keptEvent routes now))
  | [], _ => rfl
  | st :: rest, h => by
    have hst : recordRaises routes st = false := h st (List.mem_cons_self st rest)
    have hrest := parseLoop_eq_ok now routes rest
      (fun x hx => h x (List.mem_cons_of_mem st hx))
    by_cases hf : filteredOut routes st.routeId
    · simp [parseLoop, keptEvent, hf, hrest, List.filterMap_cons]
    · cases hts : arrivalTimeStr st with
      | none => simp [parseLoop, keptEvent, hf, hts, hrest, List.filterMap_cons]
      | some s =>
        by_cases hse : s = ""
        · simp [parseLoop, keptEvent, hf, hts, hse, hrest, List.filterMap_cons]
        · cases hpi : pyInt? s with
          | none =>
            exfalso
            simp [recordRaises, hf, hts, hse, hpi] at hst
          | some t =>
            by_cases hpos : t - now > 0
            · simp [parseLoop, keptEvent, hf, hts, hse, hpi, hpos, hrest,
                List.filterMap_cons]
            · simp [parseLoop, keptEvent, hf, hts, hse, hpi, hpos, hrest,
                List.filterMap_cons]

/-- A successful parse loop implies no record raised. -/
theorem parseLoop_ok_noRaise (now : Int) (routes : Option (List String)) :
    ∀ (sts : List StopTime) (l : List (String × Int)),
      parseLoop now routes sts = .ok l →
        ∀ st ∈ sts, recordRaises routes st = false
  | [], _, _, st, hst => absurd hst (List.not_mem_nil st)
  | st0 :: rest, l, h, st, hst => by
    by_cases hf : filteredOut routes st0.routeId
    · simp only [parseLoop, hf, if_true] at h
      rcases List.mem_cons.mp hst with rfl | hmem
      · simp [recordRaises, hf]
      · exact parseLoop_ok_noRaise now routes rest l h st hmem
    · cases hts : arrivalTimeStr st0 with
      | none =>
        simp only [parseLoop, hf, if_false, hts] at h
        rcases List.mem_cons.mp hst with rfl | hmem
        · simp [recordRaises, hts]
        · exact parseLoop_ok_noRaise now routes rest l h st hmem
      | some s =>
        by_cases hse : s = ""
        · simp only [parseLoop, hf, if_false, hts, hse, if_true] at h
          rcases List.mem_cons.mp hst with rfl | hmem
          · simp [recordRaises, hts, hse]
          · exact parseLoop_ok_noRaise now routes rest l h st hmem
        · cases hpi : pyInt? s with
          | none => simp [parseLoop, hf, hts, hse, hpi] at h
          | some t =>
            by_cases hpos : t - now > 0
            · simp only [parseLoop, hf, if_false, hts, hse, hpi, hpos,
                if_true] at h
              cases hrest : parseLoop now routes rest with
              | error e => rw [hrest] at h; simp at h
              | ok tail =>
                rw [hrest] at h
                rcases List.mem_cons.mp hst with rfl | hmem
                · simp [recordRaises, hts, hse, hpi]
                · exact parseLoop_ok_noRaise now routes rest tail hrest st hmem
            · simp only [parseLoop, hf, if_false, hts, hse, hpi, hpos,
                if_false] at h
              rcases List.mem_cons.mp hst with rfl | hmem
              · simp [recordRaises, hts, hse, hpi]
              · exact parseLoop_ok_noRaise now routes rest l h st hmem

/-- Full characterisation of a successful `parse_arrivals` call: no record
raised, and the result is the stable ascending sort of the in-feed-order kept
events. -/
theorem parse_arrivals_ok_iff (data : SnapshotData)
    (routes : Option (List String)) (now : Int) (l : List (String × Int)) :
    parse_arrivals data routes now = .ok l ↔
      (∀ st ∈ data.stopTimes, recordRaises routes st = false) ∧
        l = List.insertionSort leKey
          (data.stopTimes.filterMap (keptEvent routes now)) := by
  constructor
  · intro h
    cases hp : parseLoop now routes data.stopTimes with
    | error e => simp [parse_arrivals, hp] at h
    | ok a =>
      have hnr := parseLoop_ok_noRaise now routes data.stopTimes a hp
      have := parseLoop_eq_ok now routes data.stopTimes hnr
      rw [hp] at this
      cases this
      simp only [parse_arrivals, hp, Except.ok.injEq] at h
      exact ⟨hnr, h.symm⟩
  · rintro ⟨hnr, rfl⟩
    simp [parse_arrivals, parseLoop_eq_ok now routes data.stopTimes hnr]

/-- What a kept event looks like: strictly positive seconds-until value, the
record's route id, and the record passed the route filter. -/
theorem keptEvent_some (routes : Option (List String)) (now : Int)
    (st : StopTime) (e : String × Int) (h : keptEvent routes now st = some e) :
    0 < e.2 ∧ e.1 = st.routeId ∧ filteredOut routes st.routeId = false := by
  by_cases hf : filteredOut routes st.routeId
  · simp [keptEvent, hf] at h
  · cases hts : arrivalTimeStr st with
    | none => simp [keptEvent, hf, hts] at h
    | some s =>
      by_cases hse : s = ""
      · simp [keptEvent, hf, hts, hse] at h
      · cases hpi : pyInt? s with
        | none => simp [keptEvent, hf, hts, hse, hpi] at h
        | some t =>
          by_cases hpos : t - now > 0
          · simp only [keptEvent, hf, if_false, hts, hse, hpi, hpos,
              if_true] at h
            cases h
            exact ⟨hpos, rfl, by simp [hf]⟩
          · simp [keptEvent, hf, hts, hse, hpi, hpos] at h

/-- Stability of `orderedInsert` with respect to the key filter. -/
theorem orderedInsert_filter_key (k : Int) (a : String × Int) :
    ∀ s : List (String × Int),
      (List.orderedInsert leKey a s).filter (fun e => decide (e.2 = k)) =
        if a.2 = k then a :: s.filter (fun e => decide (e.2 = k))
        else s.filter (fun e => decide (e.2 = k))
  | [] => by
    by_cases h : a.2 = k <;> simp [List.orderedInsert, h]
  | b :: s => by
    by_cases hab : leKey a b
    · by_cases h : a.2 = k <;>
        simp [List.orderedInsert, hab, List.filter_cons, h]
    · have ih := orderedInsert_filter_key k a s
      by_cases hbk : b.2 = k
      · have hak : ¬ a.2 = k := fun hak =>
          hab (show leKey a b by simp [leKey, hak, hbk])
        simp [List.orderedInsert, hab, List.filter_cons, hbk, hak, ih]
      · simp [List.orderedInsert, hab, List.filter_cons, hbk, ih]

/-- Stability of the modelled sort: for each key value, the sorted output
lists the events of that key in their original relative order. -/
theorem insertionSort_filter_key (k : Int) :
    ∀ l : List (String × Int),
      (List.insertionSort leKey l).filter (fun e => decide (e.2 = k)) =
        l.filter (fun e => decide (e.2 = k))
  | [] => rfl
  | a :: l => by
    have ih := insertionSort_filter_key k l
    by_cases h : a.2 = k <;>
      simp [List.insertionSort, orderedInsert_filter_key, ih,
        List.filter_cons, h]

/-- `get_next_train` is the first filter match of the sequence. -/
theorem get_next_train_eq_find (routes : Option (List String)) :
    ∀ arrivals : List (String × Int),
      get_next_train arrivals routes =
        arrivals.find? (fun e => routeMatches routes e.1)
  | [] => rfl
  | (r, s) :: rest => by
    by_cases h : routeMatches routes r
    · simp [get_next_train, List.find?_cons, h]
    · simp [get_next_train, List.find?_cons, h,
        get_next_train_eq_find routes rest]

/-- The Rule B scan is the first event of the sequence with wait in
`[0, 3*60]`, rendered through `bdText`. -/
theorem bdScan_eq_find (f : Int) :
    ∀ l : List (String × Int),
      bdScan f l = (l.find? (fun e =>
        decide (0 ≤ e.2 - f) && decide (e.2 - f ≤ 3 * 60))).map bdText
  | [] => rfl
  | (r, t) :: rest => by
    have ih := bdScan_eq_find f rest
    by_cases h1 : f ≤ t
    · by_cases h2 : t ≤ 180 + f
      · have hc : 0 ≤ t - f ∧ t - f ≤ 3 * 60 := by omega
        simp [bdScan, List.find?_cons, hc.1, hc.2, h1, h2, bdText]
      · have hc : ¬ (0 ≤ t - f ∧ t - f ≤ 3 * 60) := by omega
        simp [bdScan, List.find?_cons, hc, h1, h2, ih]
    · have hc : ¬ (0 ≤ t - f ∧ t - f ≤ 3 * 60) := by omega
      simp [bdScan, List.find?_cons, hc, h1, ih]

/-- Every event surviving a non-empty route filter carries one of the filter's
routes. -/
theorem parse_routes_mem (data : SnapshotData) (rs : List String)
    (hne : rs ≠ []) (now : Int) (l : List (String × Int))
    (h : parse_arrivals data (some rs) now = .ok l) :
    ∀ e ∈ l, e.1 ∈ rs := by
  intro e he
  obtain ⟨-, rfl⟩ := (parse_arrivals_ok_iff data (some rs) now l).mp h
  rw [List.mem_insertionSort] at he
  obtain ⟨st, -, hk⟩ := List.mem_filterMap.mp he
  obtain ⟨-, h1, h2⟩ := keptEvent_some (some rs) now st e hk
  rw [h1]
  simp only [filteredOut, Bool.and_eq_false_iff, Bool.not_eq_true',
    Bool.not_eq_false'] at h2
  rcases h2 with h2 | h2
  · exact absurd (List.isEmpty_iff.mp h2) hne
  · exact List.elem_iff.mp h2
/-- Among a sorted sequence, the first match of a predicate has minimal
seconds-until value over all matches. -/
theorem find_min_of_sorted (p : String × Int → Bool) :
    ∀ l : List (String × Int), List.Pairwise leKey l →
      ∀ e, l.find? p = some e → ∀ x ∈ l, p x → e.2 ≤ x.2
  | [], _, e, h => by simp at h
  | a :: l, hp, e, h => by
    intro x hx hpx
    by_cases ha : p a
    · rw [List.find?_cons_of_pos _ ha, Option.some.injEq] at h
      subst h
      rcases List.mem_cons.mp hx with rfl | hmem
      · exact le_refl _
      · exact (List.pairwise_cons.mp hp).1 x hmem
    · rw [List.find?_cons_of_neg _ ha] at h
      rcases List.mem_cons.mp hx with rfl | hmem
      · exact absurd hpx (by simpa using ha)
      · exact find_min_of_sorted p l (List.pairwise_cons.mp hp).2 e h x hmem hpx

/-! ## Claim theorems -/

/-- C7:  on a sequence sorted ascending by seconds-until-arrival,
`get_next_train` is a single linear pass returning the first filter match
(`find?`); it is absent exactly when no element matches (in particular on the
empty sequence), a returned event is a member, matches the filter, and is the
earliest matching event, and with no filter it is the head of the sequence. -/
theorem next_train_spec (l : List (String × Int))
    (routes : Option (List String)) (hsorted : List.Pairwise leKey l) :
    get_next_train l routes = l.find? (fun e => routeMatches routes e.1) ∧
    (get_next_train l routes = none ↔
      ∀ e ∈ l, routeMatches routes e.1 = false) ∧
    (∀ e, get_next_train l routes = some e →
      e ∈ l ∧ routeMatches routes e.1 = true ∧
        ∀ x ∈ l, routeMatches routes x.1 = true → e.2 ≤ x.2) ∧
    (routes = none → get_next_train l routes = l.head?) := by
  refine ⟨get_next_train_eq_find routes l, ?_, ?_, ?_⟩
  · rw [get_next_train_eq_find, List.find?_eq_none]
    constructor
    · intro h e he
      simpa using h e he
    · intro h e he
      simp [h e he]
  · intro e he
    rw [get_next_train_eq_find] at he
    refine ⟨List.mem_of_find?_eq_some he, ?_,
      find_min_of_sorted _ l hsorted e he⟩
    have := List.find?_some he
    simpa using this
  · rintro rfl
    cases l with
    | nil => rfl
    | cons a rest => obtain ⟨r, s⟩ := a; simp [get_next_train, routeMatches]

/-- Witness for C7 at a concrete sorted sequence and filter. -/
theorem next_train_spec_witness :
    get_next_train [(("A" : String), (50 : Int)), ("G", 100), ("F", 100)]
        (some ["F"]) =
      [(("A" : String), (50 : Int)), ("G", 100), ("F", 100)].find?
        (fun e => routeMatches (some ["F"]) e.1) ∧
    (get_next_train [(("A" : String), (50 : Int)), ("G", 100), ("F", 100)]
        (some ["F"]) = none ↔
      ∀ e ∈ [(("A" : String), (50 : Int)), ("G", 100), ("F", 100)],
        routeMatches (some ["F"]) e.1 = false) ∧
    (∀ e, get_next_train [(("A" : String), (50 : Int)), ("G", 100), ("F", 100)]
        (some ["F"]) = some e →
      e ∈ [(("A" : String), (50 : Int)), ("G", 100), ("F", 100)] ∧
        routeMatches (some ["F"]) e.1 = true ∧
        ∀ x ∈ [(("A" : String), (50 : Int)), ("G", 100), ("F", 100)],
          routeMatches (some ["F"]) x.1 = true → e.2 ≤ x.2) ∧
    ((some ["F"] : Option (List String)) = none →
      get_next_train [(("A" : String), (50 : Int)), ("G", 100), ("F", 100)]
        (some ["F"]) =
        [(("A" : String), (50 : Int)), ("G", 100), ("F", 100)].head?) :=
  next_train_spec [("A", 50), ("G", 100), ("F", 100)] (some ["F"]) (by decide)

/-- C10:  an empty route-filter list behaves asymmetrically:
`get_next_train` with filter `[]` matches nothing (absent on every sequence),
while `parse_arrivals` with routes `[]` applies no filtering at all and agrees
with the unfiltered call on every snapshot. -/
theorem empty_filter_asymmetry :
    (∀ arrivals : List (String × Int),
      get_next_train arrivals (some []) = none) ∧
    ∀ (data : SnapshotData) (now : Int),
      parse_arrivals data (some []) now = parse_arrivals data none now := by
  constructor
  · intro arrivals
    induction arrivals with
    | nil => rfl
    | cons a rest ih =>
      obtain ⟨r, s⟩ := a
      simp [get_next_train, routeMatches, ih]
  · intro data now
    have hloop : ∀ sts : List StopTime,
        parseLoop now (some []) sts = parseLoop now none sts := by
      intro sts
      induction sts with
      | nil => rfl
      | cons st rest ih =>
        have hf : filteredOut (some []) st.routeId =
            filteredOut none st.routeId := rfl
        simp only [parseLoop, hf, ih]
    simp [parse_arrivals, hloop]

/-- C4:  a successful normalization is sorted ascending by
seconds-until-arrival, every event is strictly positive, and ties keep the
relative feed order (the events at each fixed key value appear exactly as in
the in-feed-order kept list). -/
theorem normalization_sorted_stable_positive (data : SnapshotData)
    (routes : Option (List String)) (now : Int) (l : List (String × Int))
    (hp : parse_arrivals data routes now = .ok l) :
    List.Pairwise leKey l ∧ (∀ e ∈ l, 0 < e.2) ∧
    ∀ k : Int, l.filter (fun e => decide (e.2 = k)) =
      (data.stopTimes.filterMap (keptEvent routes now)).filter
        (fun e => decide (e.2 = k)) := by
  obtain ⟨-, rfl⟩ := (parse_arrivals_ok_iff data routes now l).mp hp
  refine ⟨List.sorted_insertionSort leKey _, ?_,
    fun k => insertionSort_filter_key k _⟩
  intro e he
  rw [List.mem_insertionSort] at he
  obtain ⟨st, -, hk⟩ := List.mem_filterMap.mp he
  exact (keptEvent_some routes now st e hk).1

/-- Witness for C4 at a snapshot with a tie at 100 s. -/
theorem normalization_sorted_stable_positive_witness :
    List.Pairwise leKey [(("A" : String), (50 : Int)), ("G", 100), ("F", 100)] ∧
    (∀ e ∈ [(("A" : String), (50 : Int)), ("G", 100), ("F", 100)], 0 < e.2) ∧
    ∀ k : Int,
      [(("A" : String), (50 : Int)), ("G", 100), ("F", 100)].filter
          (fun e => decide (e.2 = k)) =
        (snapTie.stopTimes.filterMap (keptEvent none 0)).filter
          (fun e => decide (e.2 = k)) :=
  normalization_sorted_stable_positive snapTie none 0
    [("A", 50), ("G", 100), ("F", 100)] rfl

/-- C1:  Rule A (`check_g_switch`) fires iff an F and a G train both exist
at the origin, the G departs at least 360 s before the F, an A train exists at
the transfer station, and the A arrival is at most G departure + 180 s + 300 s
(only this upper bound is enforced — no lower bound appears in the
condition); on success the result carries the advisory text with the G
departure and A arrival, on failure all three outputs are absent (`none`). -/
theorem ruleA_fires_iff (carroll hoyt : SnapshotData) (now : Int)
    (cArr hArr : List (String × Int))
    (hc : parse_arrivals carroll none now = .ok cArr)
    (hh : parse_arrivals hoyt none now = .ok hArr) :
    ∃ res : Option (String × Int × Int),
      check_g_switch carroll hoyt now = .ok res ∧
      ∀ txt gdep aarr, res = some (txt, gdep, aarr) ↔
        ∃ fp gp ap : String × Int,
          get_next_train cArr (some ["F"]) = some fp ∧
          get_next_train cArr (some ["G"]) = some gp ∧
          360 ≤ fp.2 - gp.2 ∧
          get_next_train hArr (some ["A"]) = some ap ∧
          ap.2 ≤ gp.2 + 180 + 300 ∧
          txt = "G to A" ∧ gdep = gp.2 ∧ aarr = ap.2 := by
  cases hg : get_next_train cArr (some ["G"]) with
  | none =>
    refine ⟨none, by simp [check_g_switch, hc, hg], ?_⟩
    intro txt gdep aarr
    constructor
    · intro h
      cases h
    · rintro ⟨fp, gp, ap, -, hgp, -⟩
      cases hgp
  | some gpair =>
    obtain ⟨gr, gt⟩ := gpair
    cases hf : get_next_train cArr (some ["F"]) with
    | none =>
      refine ⟨none, by simp [check_g_switch, hc, hg, hf], ?_⟩
      intro txt gdep aarr
      constructor
      · intro h
        cases h
      · rintro ⟨fp, gp, ap, hfp, -⟩
        cases hfp
    | some fpair =>
      obtain ⟨fr, ft⟩ := fpair
      by_cases hd : ft - gt < 6 * 60
      · refine ⟨none, ?_, ?_⟩
        · simp only [check_g_switch, hc, hg, hf]
          rw [if_pos hd]
        · intro txt gdep aarr
          constructor
          · intro h
            cases h
          · rintro ⟨fp, gp, ap, hfp, hgp, hlead, -⟩
            rw [Option.some.injEq] at hfp hgp
            subst hfp
            subst hgp
            simp only at hlead
            omega
      · cases ha : get_next_train hArr (some ["A"]) with
        | none =>
          refine ⟨none, ?_, ?_⟩
          · simp only [check_g_switch, hc, hg, hf, hh, ha]
            rw [if_neg hd]
          · intro txt gdep aarr
            constructor
            · intro h
              cases h
            · rintro ⟨fp, gp, ap, -, -, -, hap, -⟩
              cases hap
        | some apair =>
          obtain ⟨ar, at1⟩ := apair
          by_cases hw : at1 ≤ (gt + 3 * 60) + 5 * 60
          · refine ⟨some ("G to A", gt, at1), ?_, ?_⟩
            · simp only [check_g_switch, hc, hg, hf, hh, ha]
              rw [if_neg hd, if_pos hw]
            · intro txt gdep aarr
              constructor
              · intro h
                rw [Option.some.injEq] at h
                injection h with h1 h23
                injection h23 with h2 h3
                exact ⟨(fr, ft), (gr, gt), (ar, at1), rfl, rfl, by omega,
                  rfl, by omega, h1.symm, h2.symm, h3.symm⟩
              · rintro ⟨fp, gp, ap, -, hgp, -, hap, -, htxt, hgd, haa⟩
                rw [Option.some.injEq] at hgp hap
                subst hgp
                subst hap
                simp only at hgd haa
                rw [htxt, hgd, haa]
          · refine ⟨none, ?_, ?_⟩
            · simp only [check_g_switch, hc, hg, hf, hh, ha]
              rw [if_neg hd, if_neg hw]
            · intro txt gdep aarr
              constructor
              · intro h
                cases h
              · rintro ⟨fp, gp, ap, -, hgp, -, hap, hacc, -⟩
                rw [Option.some.injEq] at hgp hap
                subst hgp
                subst hap
                simp only at hacc
                omega

/-- Witness for C1: the rule fires on the concrete snapshots (G at 500 s,
F at 960 s, A at 860 s ≤ 500 + 480). -/
theorem ruleA_fires_iff_witness :
    ∃ res : Option (String × Int × Int),
      check_g_switch snapCarroll snapHoyt 0 = .ok res ∧
      ∀ txt gdep aarr, res = some (txt, gdep, aarr) ↔
        ∃ fp gp ap : String × Int,
          get_next_train [("G", 500), ("F", 960)] (some ["F"]) = some fp ∧
          get_next_train [("G", 500), ("F", 960)] (some ["G"]) = some gp ∧
          360 ≤ fp.2 - gp.2 ∧
          get_next_train [("A", 860)] (some ["A"]) = some ap ∧
          ap.2 ≤ gp.2 + 180 + 300 ∧
          txt = "G to A" ∧ gdep = gp.2 ∧ aarr = ap.2 :=
  ruleA_fires_iff snapCarroll snapHoyt 0 [("G", 500), ("F", 960)]
    [("A", 860)] rfl rfl

/-- C2:  Rule B (`check_bd_express`) fires iff an F departure exists at the
origin and some downstream express event has wait
`express_arrival - (F + travel_time)` in `[0, 180]`; the scan is exactly
`find?` over the time-sorted downstream sequence — earliest first, stopping at
the first candidate satisfying both bounds, skipping negative-wait candidates
— and on success the advisory text names that candidate's route; on failure
the result is absent. -/
theorem ruleB_fires_iff (origin laf : SnapshotData) (travel_time now : Int)
    (sArr lArr : List (String × Int))
    (hs : parse_arrivals origin none now = .ok sArr)
    (hl : parse_arrivals laf (some ["B", "D"]) now = .ok lArr) :
    ∃ res : Option String,
      check_bd_express origin laf travel_time now = .ok res ∧
      (res.isSome ↔ ∃ fp : String × Int,
          get_next_train sArr (some ["F"]) = some fp ∧
          ∃ e ∈ lArr, 0 ≤ e.2 - (fp.2 + travel_time) ∧
            e.2 - (fp.2 + travel_time) ≤ 180) ∧
      ∀ fp : String × Int, get_next_train sArr (some ["F"]) = some fp →
        res = (lArr.find? (fun e =>
            decide (0 ≤ e.2 - (fp.2 + travel_time)) &&
            decide (e.2 - (fp.2 + travel_time) ≤ 3 * 60))).map bdText := by
  cases hf : get_next_train sArr (some ["F"]) with
  | none =>
    refine ⟨none, by simp [check_bd_express, hs, hf], ?_, ?_⟩
    · constructor
      · intro h
        simp at h
      · rintro ⟨fp, hfp, -⟩
        cases hfp
    · intro fp hfp
      cases hfp
  | some fpair =>
    obtain ⟨fr, ft⟩ := fpair
    refine ⟨bdScan (ft + travel_time) lArr,
      by simp [check_bd_express, hs, hf, hl], ?_, ?_⟩
    · rw [bdScan_eq_find, Option.isSome_map', List.find?_isSome]
      constructor
      · rintro ⟨e, hmem, hcond⟩
        simp only [Bool.and_eq_true, decide_eq_true_eq] at hcond
        exact ⟨(fr, ft), rfl, e, hmem, by omega, by omega⟩
      · rintro ⟨fp, hfp, e, hmem, h1, h2⟩
        rw [Option.some.injEq] at hfp
        subst hfp
        simp only at h1 h2
        refine ⟨e, hmem, ?_⟩
        simp only [Bool.and_eq_true, decide_eq_true_eq]
        omega
    · intro fp hfp
      rw [Option.some.injEq] at hfp
      subst hfp
      exact bdScan_eq_find _ lArr

/-- Witness for C2: Rule B fires on the concrete snapshots (F at 960 s,
travel time 480 s, D at 1500 s, wait 60 s). -/
theorem ruleB_fires_iff_witness :
    ∃ res : Option String,
      check_bd_express snapCarroll snapLafayette 480 0 = .ok res ∧
      (res.isSome ↔ ∃ fp : String × Int,
          get_next_train [("G", 500), ("F", 960)] (some ["F"]) = some fp ∧
          ∃ e ∈ [(("D" : String), (1500 : Int)), ("B", 2000)],
            0 ≤ e.2 - (fp.2 + 480) ∧ e.2 - (fp.2 + 480) ≤ 180) ∧
      ∀ fp : String × Int,
        get_next_train [("G", 500), ("F", 960)] (some ["F"]) = some fp →
        res = ([(("D" : String), (1500 : Int)), ("B", 2000)].find? (fun e =>
            decide (0 ≤ e.2 - (fp.2 + 480)) &&
            decide (e.2 - (fp.2 + 480) ≤ 3 * 60))).map bdText :=
  ruleB_fires_iff snapCarroll snapLafayette 480 0 [("G", 500), ("F", 960)]
    [("D", 1500), ("B", 2000)] rfl rfl

/-- C8:  with an empty alternate-route transfer-station snapshot, Rule A
evaluates cleanly to absent (no exception); whenever the F or the G train is
already missing at the origin, Rule A is absent for *any* transfer-station
payload (it returns before consulting it, even a payload that would raise);
Rule B's result is passed through unaffected and the composed report still
carries a valid primary route. -/
theorem ruleA_degrades_cleanly (origin hoytE laf : SnapshotData)
    (travel_time now : Int) (sArr : List (String × Int))
    (hs : parse_arrivals origin none now = .ok sArr)
    (he : hoytE.stopTimes = []) :
    check_g_switch origin hoytE now = .ok none ∧
    (∀ hoytAny : SnapshotData,
      get_next_train sArr (some ["F"]) = none ∨
        get_next_train sArr (some ["G"]) = none →
      check_g_switch origin hoytAny now = .ok none) ∧
    ∀ bd, check_bd_express origin laf travel_time now = .ok bd →
      ∃ rep : StationReport,
        get_station_report_core origin hoytE laf travel_time now = .ok rep ∧
        rep.g_switch = none ∧ rep.bd_advice = bd ∧
        (rep.recommended_train = "F" ∨ rep.recommended_train = "F → B" ∨
          rep.recommended_train = "F → D") := by
  have hE : parse_arrivals hoytE none now = .ok [] := by
    simp [parse_arrivals, he, parseLoop]
  have hA : check_g_switch origin hoytE now = .ok none := by
    cases hg : get_next_train sArr (some ["G"]) with
    | none => simp [check_g_switch, hs, hg]
    | some gpair =>
      obtain ⟨gr, gt⟩ := gpair
      cases hf : get_next_train sArr (some ["F"]) with
      | none => simp [check_g_switch, hs, hg, hf]
      | some fpair =>
        obtain ⟨fr, ft⟩ := fpair
        by_cases hd : ft - gt < 6 * 60
        · simp only [check_g_switch, hs, hg, hf]
          rw [if_pos hd]
        · simp only [check_g_switch, hs, hg, hf, hE, get_next_train]
          rw [if_neg hd]
  refine ⟨hA, ?_, ?_⟩
  · intro hoytAny hng
    rcases hng with hng | hng
    · cases hg : get_next_train sArr (some ["G"]) with
      | none => simp [check_g_switch, hs, hg]
      | some gpair =>
        obtain ⟨gr, gt⟩ := gpair
        simp [check_g_switch, hs, hg, hng]
    · simp [check_g_switch, hs, hng]
  · intro bd hbd
    cases bd with
    | none =>
      exact ⟨⟨"F", none, none⟩,
        by simp [get_station_report_core, hA, hbd], rfl, rfl, Or.inl rfl⟩
    | some advice =>
      by_cases hB : pyInStr "B" advice
      · exact ⟨⟨"F → B", none, some advice⟩,
          by simp [get_station_report_core, hA, hbd, hB], rfl, rfl,
          Or.inr (Or.inl rfl)⟩
      · by_cases hD : pyInStr "D" advice
        · exact ⟨⟨"F → D", none, some advice⟩,
            by simp [get_station_report_core, hA, hbd, hB, hD], rfl, rfl,
            Or.inr (Or.inr rfl)⟩
        · exact ⟨⟨"F", none, some advice⟩,
            by simp [get_station_report_core, hA, hbd, hB, hD], rfl, rfl,
            Or.inl rfl⟩

/-- Witness for C8 at concrete data with an empty transfer-station payload. -/
theorem ruleA_degrades_cleanly_witness :
    check_g_switch snapCarroll snapEmpty 0 = .ok none ∧
    (∀ hoytAny : SnapshotData,
      get_next_train [("G", 500), ("F", 960)] (some ["F"]) = none ∨
        get_next_train [("G", 500), ("F", 960)] (some ["G"]) = none →
      check_g_switch snapCarroll hoytAny 0 = .ok none) ∧
    ∀ bd, check_bd_express snapCarroll snapLafayette 480 0 = .ok bd →
      ∃ rep : StationReport,
        get_station_report_core snapCarroll snapEmpty snapLafayette 480 0 =
          .ok rep ∧
        rep.g_switch = none ∧ rep.bd_advice = bd ∧
        (rep.recommended_train = "F" ∨ rep.recommended_train = "F → B" ∨
          rep.recommended_train = "F → D") :=
  ruleA_degrades_cleanly snapCarroll snapEmpty snapLafayette 480 0
    [("G", 500), ("F", 960)] rfl rfl

/-- A fired Rule B advisory is one of the two express texts, because the
downstream sequence is filtered to routes B and D. -/
theorem check_bd_advice_shape (origin laf : SnapshotData)
    (travel_time now : Int) (advice : String)
    (h : check_bd_express origin laf travel_time now = .ok (some advice)) :
    advice = "Transfer to B at Lafayette for Express" ∨
    advice = "Transfer to D at Lafayette for Express" := by
  cases hp : parse_arrivals origin none now with
  | error e => simp [check_bd_express, hp] at h
  | ok sArr =>
    cases hf : get_next_train sArr (some ["F"]) with
    | none => simp [check_bd_express, hp, hf] at h
    | some fpair =>
      obtain ⟨fr, ft⟩ := fpair
      cases hl : parse_arrivals laf (some ["B", "D"]) now with
      | error e => simp [check_bd_express, hp, hf, hl] at h
      | ok lArr =>
        simp only [check_bd_express, hp, hf, hl, Except.ok.injEq] at h
        rw [bdScan_eq_find] at h
        obtain ⟨e, hfind, htext⟩ := Option.map_eq_some'.mp h
        have hmem := List.mem_of_find?_eq_some hfind
        have hroute := parse_routes_mem laf ["B", "D"] (by simp) now lArr hl
          e hmem
        simp only [List.mem_cons, List.not_mem_nil, or_false] at hroute
        rw [← htext]
        unfold bdText
        rcases hroute with h1 | h1 <;> rw [h1]
        · exact Or.inl rfl
        · exact Or.inr rfl

/-- Counterexample to C3 as stated: on snapshots where both rules fire,
`get_station_report`'s composed recommendation is Rule B's "F → D", not Rule
A's alternate route "G" — so Rule B's override does replace Rule A's. -/
theorem composer_precedence_cex :
    get_station_report_core snapCarroll snapHoyt snapLafayette 480 0 =
      .ok ⟨"F → D", some ("G to A", 500, 860),
        some "Transfer to D at Lafayette for Express"⟩ ∧
    ("F → D" : String) ≠ "G" :=
  ⟨rfl, by decide⟩

/-- C3, amended:  the two composers disagree with the claim's order.  In
`subway_alert.get_station_report` the B/D override is applied after the
G-Switch override and unconditionally replaces it: whenever both rules fire
the composed primary route is "F → B" or "F → D", never Rule A's "G" (the
G-Switch note is still attached through the `g_switch` field).  In
`web_app.get_subway_data` the primary route is determined by Rule A alone
("G" iff Rule A fired, else "F"); Rule B's note is attached but never
overrides the route. -/
theorem composer_precedence_amended :
    (∀ (origin hoyt laf : SnapshotData) (travel_time now : Int)
        (rep : StationReport),
        get_station_report_core origin hoyt laf travel_time now = .ok rep →
        rep.g_switch.isSome = true → rep.bd_advice.isSome = true →
        rep.recommended_train = "F → B" ∨ rep.recommended_train = "F → D") ∧
    ∀ (carroll hoyt laf : SnapshotData) (now : Int) (wd : WebData),
      get_subway_data_core carroll hoyt laf now = .ok wd →
      wd.recommended = if wd.g_switch.isSome then "G" else "F" := by
  constructor
  · intro origin hoyt laf travel_time now rep hrep hg hb
    cases hgsw : check_g_switch origin hoyt now with
    | error e => simp [get_station_report_core, hgsw] at hrep
    | ok gsw =>
      cases hbd : check_bd_express origin laf travel_time now with
      | error e => simp [get_station_report_core, hgsw, hbd] at hrep
      | ok bd =>
        simp only [get_station_report_core, hgsw, hbd, Except.ok.injEq]
          at hrep
        subst hrep
        simp only at hg hb
        cases bd with
        | none => simp at hb
        | some advice =>
          rcases check_bd_advice_shape origin laf travel_time now advice hbd
            with h1 | h1 <;> subst h1
          · left
            simp only
            rw [if_pos (by decide)]
          · right
            simp only
            rw [if_neg (by decide), if_pos (by decide)]
  · intro carroll hoyt laf now wd h
    cases hp : parse_arrivals carroll none now with
    | error e => simp [get_subway_data_core, hp] at h
    | ok cArr =>
      simp only [get_subway_data_core, hp] at h
      cases hg : web_g_switch_core (get_next_train cArr (some ["G"]))
          (get_next_train cArr (some ["F"])) hoyt now with
      | error e => rw [hg] at h; simp at h
      | ok gsw =>
        rw [hg] at h
        cases hb : web_bd_core (get_next_train cArr (some ["F"])) laf now with
        | error e => rw [hb] at h; simp at h
        | ok bd =>
          rw [hb] at h
          simp only [Except.ok.injEq] at h
          subst h
          rfl

/-- Witness for the amended C3 at the concrete both-rules-fire snapshots. -/
theorem composer_precedence_amended_witness :
    ((("F → D" : String) = "F → B") ∨ (("F → D" : String) = "F → D")) ∧
    ("G" : String) =
      (if (some "G to A" : Option String).isSome then "G" else "F") := by
  constructor
  · exact composer_precedence_amended.1 snapCarroll snapHoyt snapLafayette
      480 0
      ⟨"F → D", some ("G to A", 500, 860),
        some "Transfer to D at Lafayette for Express"⟩
      rfl rfl rfl
  · exact composer_precedence_amended.2 snapCarroll snapHoyt snapLafayette 0
      ⟨some "G to A", some "Transfer to D at Lafayette", "G"⟩ rfl

/-- A record with no usable time string is dropped and normalization of the
remaining records proceeds. -/
theorem parse_drop_noTime (st : StopTime) (rest : List StopTime)
    (routes : Option (List String)) (now : Int)
    (h : arrivalTimeStr st = none) :
    parse_arrivals ⟨st :: rest⟩ routes now =
      parse_arrivals ⟨rest⟩ routes now := by
  by_cases hf : filteredOut routes st.routeId <;>
    simp [parse_arrivals, parseLoop, hf, h]

/-- If any record raises, the whole parse loop raises. -/
theorem parseLoop_error_of_raise (now : Int) (routes : Option (List String)) :
    ∀ sts : List StopTime, (∃ st ∈ sts, recordRaises routes st = true) →
      parseLoop now routes sts = .error ()
  | [], h => by simp at h
  | st0 :: rest, h => by
    obtain ⟨st, hmem, hraise⟩ := h
    rcases List.mem_cons.mp hmem with rfl | hmem
    · by_cases hf : filteredOut routes st.routeId
      · simp [recordRaises, hf] at hraise
      · cases hts : arrivalTimeStr st with
        | none => simp [recordRaises, hf, hts] at hraise
        | some s =>
          by_cases hse : s = ""
          · simp [recordRaises, hf, hts, hse] at hraise
          · cases hpi : pyInt? s with
            | some t => simp [recordRaises, hf, hts, hse, hpi] at hraise
            | none => simp [parseLoop, hf, hts, hse, hpi]
    · have ih := parseLoop_error_of_raise now routes rest ⟨st, hmem, hraise⟩
      by_cases hf : filteredOut routes st0.routeId
      · simp [parseLoop, hf, ih]
      · cases hts : arrivalTimeStr st0 with
        | none => simp [parseLoop, hf, hts, ih]
        | some s =>
          by_cases hse : s = ""
          · simp [parseLoop, hf, hts, hse, ih]
          · cases hpi : pyInt? s with
            | none => simp [parseLoop, hf, hts, hse, hpi]
            | some t =>
              by_cases hpos : t - now > 0
              · simp [parseLoop, hf, hts, hse, hpi, hpos, ih]
              · simp [parseLoop, hf, hts, hse, hpi, hpos, ih]

/-- Counterexample to C5 as stated: a snapshot whose first record carries an
ISO-8601 timestamp makes `parse_arrivals` raise (`error`), aborting the
whole normalization — even though its remaining record alone normalizes
fine. -/
theorem normalization_iso_timestamp_cex :
    parse_arrivals snapIso none 0 = .error () ∧
    parse_arrivals ⟨[mkStopTime "G" "500"]⟩ none 0 = .ok [("G", 500)] :=
  ⟨rfl, rfl⟩

/-- C5, amended:  normalization accepts only (signed decimal) epoch-second
strings.  A record with no usable timestamp is silently dropped and the
remaining records are still normalized; an epoch-second string in the future
window is normalized; but a record whose timestamp string fails integer
parsing (every ISO-8601 string does) raises and aborts normalization of the
entire snapshot. -/
theorem normalization_timestamp_amended :
    (∀ (st : StopTime) (rest : List StopTime) (routes : Option (List String))
        (now : Int), arrivalTimeStr st = none →
        parse_arrivals ⟨st :: rest⟩ routes now =
          parse_arrivals ⟨rest⟩ routes now) ∧
    (∀ (st : StopTime) (routes : Option (List String)) (now : Int)
        (s : String) (t : Int),
        filteredOut routes st.routeId = false → arrivalTimeStr st = some s →
        pyInt? s = some t → 0 < t - now →
        parse_arrivals ⟨[st]⟩ routes now = .ok [(st.routeId, t - now)]) ∧
    ∀ (data : SnapshotData) (routes : Option (List String)) (now : Int)
        (st : StopTime), st ∈ data.stopTimes → recordRaises routes st = true →
        parse_arrivals data routes now = .error () := by
  refine ⟨parse_drop_noTime, ?_, ?_⟩
  · intro st routes now s t hf hts hpi hpos
    have hse : ¬ s = "" := by
      rintro rfl
      rw [show pyInt? "" = none from rfl] at hpi
      cases hpi
    simp [parse_arrivals, parseLoop, hf, hts, hse, hpi, hpos]
  · intro data routes now st hmem hraise
    simp [parse_arrivals,
      parseLoop_error_of_raise now routes data.stopTimes ⟨st, hmem, hraise⟩]

/-- Witness for the amended C5: a bare record is dropped while the rest is
normalized; "500" is accepted; the ISO snapshot raises. -/
theorem normalization_timestamp_amended_witness :
    (parse_arrivals ⟨stBare :: [mkStopTime "G" "500"]⟩ none 0 =
      parse_arrivals ⟨[mkStopTime "G" "500"]⟩ none 0) ∧
    (parse_arrivals ⟨[mkStopTime "G" "500"]⟩ none 0 = .ok [("G", 500)]) ∧
    parse_arrivals snapIso none 0 = .error () :=
  ⟨normalization_timestamp_amended.1 stBare [mkStopTime "G" "500"] none 0 rfl,
   normalization_timestamp_amended.2.1 (mkStopTime "G" "500") none 0 "500"
     500 rfl rfl (by decide) (by decide),
   normalization_timestamp_amended.2.2 snapIso none 0
     (mkStopTime "F" "2024-01-01T00:00:00Z") (by decide) (by decide)⟩

/-- Counterexample to C6 as stated: `stShadowed`'s arrival object exists (it is
non-empty) but carries no timestamp, while its departure carries the parseable
timestamp "100"; at `now = 0` the claim predicts the record resolves to the
departure time (output `[("G", 100)]`), but normalization drops it. -/
theorem effective_time_cex :
    parse_arrivals ⟨[stShadowed]⟩ none 0 = .ok [] ∧
    stShadowed.departure = some ⟨some "100", false⟩ ∧
    pyInt? "100" = some 100 ∧
    (Except.ok ([] : List (String × Int)) : Except Unit (List (String × Int)))
      ≠ Except.ok [(("G" : String), (100 : Int))] :=
  ⟨rfl, rfl, by decide, by simp⟩

/-- C6, amended:  the effective time is resolved from the arrival *object*
when that object is truthy (non-empty), and from the departure object only
otherwise; in particular a non-empty arrival object without a timestamp
causes the record to be dropped even when the departure carries one, and a
record with no timestamp in the selected object (in particular with neither
timestamp) is dropped while normalization continues. -/
theorem effective_time_amended :
    (∀ st : StopTime, timeInfoTruthy st.arrival = true →
        arrivalTimeStr st = st.arrival.bind TimeInfo.time) ∧
    (∀ st : StopTime, timeInfoTruthy st.arrival = false →
        arrivalTimeStr st = st.departure.bind TimeInfo.time) ∧
    (∀ (st : StopTime) (rest : List StopTime) (routes : Option (List String))
        (now : Int), timeInfoTruthy st.arrival = true →
        st.arrival.bind TimeInfo.time = none →
        parse_arrivals ⟨st :: rest⟩ routes now =
          parse_arrivals ⟨rest⟩ routes now) ∧
    ∀ (st : StopTime) (rest : List StopTime) (routes : Option (List String))
        (now : Int), st.arrival.bind TimeInfo.time = none →
        st.departure.bind TimeInfo.time = none →
        parse_arrivals ⟨st :: rest⟩ routes now =
          parse_arrivals ⟨rest⟩ routes now := by
  have harr : ∀ st : StopTime, timeInfoTruthy st.arrival = true →
      arrivalTimeStr st = st.arrival.bind TimeInfo.time := by
    intro st h
    cases ha : st.arrival with
    | none => rw [ha] at h; simp [timeInfoTruthy] at h
    | some i =>
      rw [ha] at h
      simp [arrivalTimeStr, ha, h]
  have hdep : ∀ st : StopTime, timeInfoTruthy st.arrival = false →
      arrivalTimeStr st = st.departure.bind TimeInfo.time := by
    intro st h
    cases hd : st.departure with
    | none => simp [arrivalTimeStr, h, hd]
    | some j => simp [arrivalTimeStr, h, hd]
  refine ⟨harr, hdep, ?_, ?_⟩
  · intro st rest routes now h hnone
    exact parse_drop_noTime st rest routes now ((harr st h).trans hnone)
  · intro st rest routes now hanone hdnone
    cases h : timeInfoTruthy st.arrival with
    | true =>
      exact parse_drop_noTime st rest routes now ((harr st h).trans hanone)
    | false =>
      exact parse_drop_noTime st rest routes now ((hdep st h).trans hdnone)

/-- Witness for the amended C6 at the shadowed and bare records. -/
theorem effective_time_amended_witness :
    (arrivalTimeStr stShadowed =
      (some (⟨none, true⟩ : TimeInfo)).bind TimeInfo.time) ∧
    (arrivalTimeStr stBare = (none : Option TimeInfo).bind TimeInfo.time) ∧
    (parse_arrivals ⟨stShadowed :: [mkStopTime "G" "500"]⟩ none 0 =
      parse_arrivals ⟨[mkStopTime "G" "500"]⟩ none 0) ∧
    parse_arrivals ⟨stBare :: [mkStopTime "G" "500"]⟩ none 0 =
      parse_arrivals ⟨[mkStopTime "G" "500"]⟩ none 0 :=
  ⟨effective_time_amended.1 stShadowed rfl,
   effective_time_amended.2.1 stBare rfl,
   effective_time_amended.2.2.1 stShadowed [mkStopTime "G" "500"] none 0
     rfl rfl,
   effective_time_amended.2.2.2 stBare [mkStopTime "G" "500"] none 0 rfl rfl⟩

/-- Counterexample to C9: a negative and a zero travel-time constant are both
silently accepted by `check_bd_express` — evaluation runs normally (with
−480 s the rule even fires) instead of failing loudly before evaluation. -/
theorem config_validation_cex :
    check_bd_express snapCarroll snapLafEarly (-480) 0 =
      .ok (some "Transfer to D at Lafayette for Express") ∧
    check_bd_express snapCarroll snapLafEarly 0 0 = .ok none :=
  ⟨rfl, rfl⟩

/-- C9, amended:  no configuration validation exists; a non-positive
travel-time constant is used directly in the time arithmetic and the rule
evaluates to its ordinary scan result rather than rejecting the
configuration. -/
theorem config_validation_amended (origin laf : SnapshotData)
    (travel_time now : Int) (_hnp : travel_time ≤ 0)
    (sArr lArr : List (String × Int))
    (hs : parse_arrivals origin none now = .ok sArr)
    (hl : parse_arrivals laf (some ["B", "D"]) now = .ok lArr) :
    check_bd_express origin laf travel_time now =
      .ok (match get_next_train sArr (some ["F"]) with
        | none => none
        | some fp => (lArr.find? (fun e =>
            decide (0 ≤ e.2 - (fp.2 + travel_time)) &&
            decide (e.2 - (fp.2 + travel_time) ≤ 3 * 60))).map bdText) := by
  cases hf : get_next_train sArr (some ["F"]) with
  | none => simp [check_bd_express, hs, hf]
  | some fpair =>
    obtain ⟨fr, ft⟩ := fpair
    simp [check_bd_express, hs, hf, hl, bdScan_eq_find]

/-- Witness for the amended C9 with the concrete negative constant −480 s. -/
theorem config_validation_amended_witness :
    check_bd_express snapCarroll snapLafEarly (-480) 0 =
      .ok (match get_next_train [("G", 500), ("F", 960)] (some ["F"]) with
        | none => none
        | some fp => ([(("D" : String), (600 : Int))].find? (fun e =>
            decide (0 ≤ e.2 - (fp.2 + -480)) &&
            decide (e.2 - (fp.2 + -480) ≤ 3 * 60))).map bdText) :=
  config_validation_amended snapCarroll snapLafEarly (-480) 0 (by decide)
    [("G", 500), ("F", 960)] [("D", 600)] rfl rfl
